import Mathlib

/-!
Verification development for the adobe-eds-ue-test repository.

The repository consists of a skill-loading shell script
(`load-custom-skills.sh`) and several Edge Delivery Services block
decorators (`blocks/alert`, `blocks/carousel`, `blocks/download`,
`blocks/downloads`).  This file gives a shallow embedding of the parts of
that code that the verified properties talk about:

* text files manipulated by the shell script are modelled as lists of
  lines (`FileLines`); every file is assumed newline-terminated, so a
  0-byte file is `[]` and byte-for-byte equality of files is equality of
  the line lists;
* `git merge-file` is an external tool, so `three_way_merge_file` is
  modelled as a function parameterised by an oracle
  `gm : FileLines → FileLines → FileLines → Option FileLines`
  taking (current, base, incoming) and returning `some merged` on a clean
  merge and `none` when the merge reports conflicts;
* the DOM structures read by the block decorators are modelled as records
  carrying exactly the fields the decorators inspect (text content,
  presence of anchors, attributes, ...).
-/

set_option autoImplicit false
set_option maxRecDepth 100000

abbrev FileLines := List String

/-- Character class `[[:space:]]` used by `sed` in the smart-merge pattern
of `three_way_merge_file` (space, tab, newline, vertical tab, form feed,
carriage return; lines themselves contain no newline). -/
def isPosixSpace (c : Char) : Bool :=
  c = ' ' || c = '\t' || c = '\n' || c = '\x0b' || c = '\x0c' || c = '\r'

/-- Core of `sed 's/[[:space:]]\+/ /g'`: collapse every maximal run of
whitespace characters into a single space.  The boolean records whether the
previous character was part of a whitespace run. -/
def collapseRun : Bool → List Char → List Char
  | _, [] => []
  | prevWs, c :: rest =>
    if isPosixSpace c then
      if prevWs then collapseRun true rest
      else ' ' :: collapseRun true rest
    else c :: collapseRun false rest

/-- `sed 's/[[:space:]]\+/ /g'` applied to one line. -/
def collapseWs (s : String) : String :=
  ⟨collapseRun false s.data⟩

/-- The grep pattern built in the smart-merge loop of
`three_way_merge_file`:
`pattern=$(echo "$line" | sed 's/[[:space:]]\+/ /g' | cut -c1-50)`. -/
def pattern50 (line : String) : String :=
  (collapseWs line).take 50

/-- Is `pat` a contiguous substring of `l` (character lists)? -/
def containsSub : List Char → List Char → Bool
  | pat, [] => pat.isEmpty
  | pat, c :: rest => pat.isPrefixOf (c :: rest) || containsSub pat rest

/-- `grep -qF "$pattern" "$current"`: does the fixed string `pat` occur
anywhere in the file?  The pattern never contains a newline, so an
occurrence in the file is an occurrence inside a single line. -/
def grepQF (pat : String) (file : FileLines) : Bool :=
  file.any (fun l => containsSub pat.data l.data)

/-- Filter used by the smart-merge loop of `three_way_merge_file`: a line
of the incoming file is appended exactly when it has at least 3 characters
(`[[ -z "$line" || "${#line}" -lt 3 ]] && continue`; emptiness is subsumed
by the length test) and its collapsed 50-character pattern does not occur
in the (old) current file. -/
def keepLine (current : FileLines) (line : String) : Bool :=
  3 ≤ line.length && !(grepQF (pattern50 line) current)

/-- Smart-merge loop of `three_way_merge_file` (lines 117-129 of
`load-custom-skills.sh`): start from the current file and append each
incoming line passing `keepLine`, counting the appended lines. -/
def smartAppend (current incoming : FileLines) : FileLines × Nat :=
  incoming.foldl
    (fun acc line =>
      if keepLine current line then (acc.1 ++ [line], acc.2 + 1) else acc)
    (current, 0)

/-- `three_way_merge_file` from `load-custom-skills.sh`.  `gm` is the
`git merge-file -p merged base incoming` oracle applied to
(current, base, incoming); the function returns the final contents of the
current file together with the function's return status. -/
def three_way_merge_file
    (gm : FileLines → FileLines → FileLines → Option FileLines)
    (current incoming base : FileLines) : FileLines × Nat :=
  match gm current base incoming with
  | some result =>
    -- clean merge: overwrite only when the result differs (`diff -q`)
    if result = current then (current, 2) else (result, 0)
  | none =>
    -- conflicts: `[[ ! -s "$base" ]]` — a 0-byte base means new content
    if base = [] then (incoming, 0)
    else
      let r := smartAppend current incoming
      (r.1, if r.2 = 0 then 2 else 0)

theorem smartAppend_foldl_eq
    (current : FileLines) :
    ∀ (incoming : FileLines) (acc : FileLines) (n : Nat),
      incoming.foldl
        (fun acc line =>
          if keepLine current line then (acc.1 ++ [line], acc.2 + 1) else acc)
        (acc, n)
      = (acc ++ incoming.filter (keepLine current),
         n + (incoming.filter (keepLine current)).length) := by
  intro incoming
  induction incoming with
  | nil => intro acc n; simp
  | cons l ls ih =>
    intro acc n
    by_cases h : keepLine current l
    · simp [List.foldl_cons, h, ih, List.filter_cons]
      omega
    · simp [List.foldl_cons, h, ih, List.filter_cons]

theorem smartAppend_eq (current incoming : FileLines) :
    smartAppend current incoming
      = (current ++ incoming.filter (keepLine current),
         (incoming.filter (keepLine current)).length) := by
  unfold smartAppend
  simpa using smartAppend_foldl_eq current incoming current 0

/-- C1: if `git merge-file` completes without conflict producing `r`, then
`three_way_merge_file` overwrites the current file with `r` and returns 0
when `r` differs from the old current contents, and leaves the current
file byte-for-byte unchanged and returns 2 when `r` equals the old current
contents. -/
theorem c1_clean_merge
    (gm : FileLines → FileLines → FileLines → Option FileLines)
    (current incoming base r : FileLines)
    (h : gm current base incoming = some r) :
    (r ≠ current → three_way_merge_file gm current incoming base = (r, 0)) ∧
    (r = current → three_way_merge_file gm current incoming base = (current, 2)) := by
  constructor
  · intro hne
    unfold three_way_merge_file
    rw [h]
    simp [hne]
  · intro he
    unfold three_way_merge_file
    rw [h]
    simp [he]

theorem c1_clean_merge_witness :
    three_way_merge_file (fun _ _ _ => some ["merged line"]) ["old line"] ["in"] []
      = (["merged line"], 0)
    ∧ three_way_merge_file (fun _ _ _ => some ["old line"]) ["old line"] ["in"] []
      = (["old line"], 2) :=
  ⟨(c1_clean_merge (fun _ _ _ => some ["merged line"]) ["old line"] ["in"] []
      ["merged line"] rfl).1 (by decide),
   (c1_clean_merge (fun _ _ _ => some ["old line"]) ["old line"] ["in"] []
      ["old line"] rfl).2 rfl⟩

/-- C2: if `git merge-file` reports a conflict, then: with an empty base
the current file is replaced by the incoming file and the function returns
0; with a non-empty base the resulting current file is the old current
contents followed by exactly those incoming lines of length at least 3
whose whitespace-collapsed 50-character prefix does not occur anywhere in
the old current file, returning 0 when at least one line was appended and
2 otherwise. -/
theorem c2_conflict_merge
    (gm : FileLines → FileLines → FileLines → Option FileLines)
    (current incoming base : FileLines)
    (h : gm current base incoming = none) :
    (base = [] →
      three_way_merge_file gm current incoming base = (incoming, 0)) ∧
    (base ≠ [] →
      three_way_merge_file gm current incoming base
        = (current ++ incoming.filter (keepLine current),
           if incoming.filter (keepLine current) = [] then 2 else 0)) := by
  constructor
  · intro hb
    unfold three_way_merge_file
    rw [h]
    simp [hb]
  · intro hb
    unfold three_way_merge_file
    rw [h]
    simp only [if_neg hb, smartAppend_eq]
    congr 1
    rcases hq : incoming.filter (keepLine current) with _ | ⟨a, l⟩ <;> simp [hq]

theorem c2_conflict_merge_witness :
    (["base line"] : FileLines) ≠ [] ∧
    three_way_merge_file (fun _ _ _ => none)
      ["keep this line"] ["ab", "keep   this line too", "a fresh line"] ["base line"]
      = (["keep this line", "keep   this line too", "a fresh line"], 0) := by
  constructor
  · decide
  · exact (c2_conflict_merge (fun _ _ _ => none)
      ["keep this line"] ["ab", "keep   this line too", "a fresh line"]
      ["base line"] rfl).2 (by decide)

/-- Kernel-reducible equivalent of `String.startsWith` (the library
function goes through substring primitives that do not reduce
definitionally, which would block evaluation in witnesses). -/
def strStartsWith (pre s : String) : Bool :=
  pre.data.isPrefixOf s.data

/-- Section-body phase of the `awk` extraction in `merge_agents_md`
(flag already set): a repetition of the exact heading line is kept, any
other level-2 heading terminates the section, every other line belongs to
the section. -/
def extractBody (name : String) : FileLines → FileLines
  | [] => []
  | l :: ls =>
    if l = "## " ++ name then l :: extractBody name ls
    else if strStartsWith "## " l then []
    else l :: extractBody name ls

/-- The `awk` section extraction used by `merge_agents_md` for the source,
destination and base files: skip lines until the first line equal to
`"## " ++ name`, print it, then print the section body. -/
def extractSection (name : String) : FileLines → FileLines
  | [] => []
  | l :: ls =>
    if l = "## " ++ name then l :: extractBody name ls
    else extractSection name ls

/-- `grep '^## ' file | sed 's/^## //'`: the level-2 heading names of a
file. -/
def sectionNames (f : FileLines) : List String :=
  (f.filter (fun l => strStartsWith "## " l)).map (fun l => l.drop 3)

/-- The condition of the new-section insertion loop in `merge_agents_md`
(`[[ "$line" =~ ^\<\!-- ]]`, which on the deployed shells matches lines
beginning with the literal characters of an HTML comment opener). -/
def agentsCommentLine (l : String) : Bool :=
  strStartsWith "<!--" l

/-- Insertion of a section that exists only in the source AGENTS.md: the
block `"", "## name", body-of-the-source-section` is inserted before the
first comment line of the destination (followed by one extra blank line),
or appended at the end when the destination has no comment line. -/
def insertNewSection (name : String) (srcSec dest : FileLines) : FileLines :=
  if dest.any agentsCommentLine then
    dest.takeWhile (fun l => !agentsCommentLine l)
      ++ ["", "## " ++ name] ++ srcSec.tail ++ [""]
      ++ dest.dropWhile (fun l => !agentsCommentLine l)
  else
    dest ++ ["", "## " ++ name] ++ srcSec.tail

/-- Replacement `awk` of `merge_agents_md`: at every line equal to the
exact heading print the merged section and start skipping; any other
level-2 heading stops the skipping (and is printed); non-skipped lines are
printed. -/
def replaceSectionGo (name : String) (merged : FileLines) : Bool → FileLines → FileLines
  | _, [] => []
  | skip, l :: ls =>
    if l = "## " ++ name then merged ++ replaceSectionGo name merged true ls
    else if skip then
      if strStartsWith "## " l then l :: replaceSectionGo name merged false ls
      else replaceSectionGo name merged true ls
    else l :: replaceSectionGo name merged false ls

/-- Replace the section `name` of `file` by `merged`. -/
def replaceSection (name : String) (merged : FileLines) (file : FileLines) : FileLines :=
  replaceSectionGo name merged false file

/-- Body of the per-section loop of `merge_agents_md` (lines 494-599 of
`load-custom-skills.sh`), acting on the current destination file `dest`:
a section only in the source is inserted, a section only in the
destination is kept, a section in both is three-way merged (via
`three_way_merge_file` on the extracted section files) when the two copies
differ, the merged text replacing the destination section only when the
merge reports a change (status 0). -/
def processSection
    (gm : FileLines → FileLines → FileLines → Option FileLines)
    (srcAgents baseAgents dest : FileLines) (name : String) : FileLines :=
  let srcSec := extractSection name srcAgents
  let destSec := extractSection name dest
  let baseSec := extractSection name baseAgents
  if destSec = [] ∧ srcSec ≠ [] then insertNewSection name srcSec dest
  else if destSec ≠ [] ∧ srcSec = [] then dest
  else if destSec ≠ [] ∧ srcSec ≠ [] then
    if srcSec = destSec then dest
    else
      let m := three_way_merge_file gm destSec srcSec baseSec
      if m.2 = 0 then replaceSection name m.1 dest else dest
  else dest

/-- Insertion sort step for the model of `sort -u`. -/
def sortInsert (s : String) : List String → List String
  | [] => [s]
  | t :: ts => if s ≤ t then s :: t :: ts else t :: sortInsert s ts

/-- Insertion sort for the model of `sort -u`. -/
def sortStrings : List String → List String
  | [] => []
  | s :: ss => sortInsert s (sortStrings ss)

/-- `sort -u` over a list of heading names (collation abstracted to the
byte/lexicographic order on strings). -/
def sortUniq (l : List String) : List String :=
  (sortStrings l).eraseDups

/-- `merge_agents_md` from `load-custom-skills.sh`: copy the source when
the destination file does not exist, bail out when the source has no
level-2 headings, otherwise fold the per-section loop over the sorted
union of the source and destination heading names (the loop `continue`s
on empty names). -/
def merge_agents_md
    (gm : FileLines → FileLines → FileLines → Option FileLines)
    (srcAgents baseAgents : FileLines) (destExists : Bool)
    (dest : FileLines) : FileLines :=
  if !destExists then srcAgents
  else if sectionNames srcAgents = [] then dest
  else
    (sortUniq (sectionNames srcAgents ++ sectionNames dest)).foldl
      (fun d n => if n = "" then d else processSection gm srcAgents baseAgents d n)
      dest

theorem extractSection_head (name : String) (f : FileLines)
    (h : extractSection name f ≠ []) :
    ∃ t, extractSection name f = ("## " ++ name) :: t := by
  induction f with
  | nil => simp [extractSection] at h
  | cons l ls ih =>
    by_cases hl : l = "## " ++ name
    · exact ⟨extractBody name ls, by simp [extractSection, hl]⟩
    · have h' : extractSection name ls ≠ [] := by
        simpa [extractSection, hl] using h
      obtain ⟨t, ht⟩ := ih h'
      exact ⟨t, by simpa [extractSection, hl] using ht⟩

/-- C3: the per-section loop of `merge_agents_md`, over the union of
level-2 headings of the source and destination, inserts into the
destination a section present only in the source, keeps the destination
file untouched for a section present only in the destination, and keeps
the destination file untouched for a section present in both files with
identical content. -/
theorem c3_merge_agents_sections
    (gm : FileLines → FileLines → FileLines → Option FileLines)
    (srcAgents baseAgents dest : FileLines) (name : String) :
    (extractSection name dest = [] → extractSection name srcAgents ≠ [] →
      extractSection name srcAgents
        <:+: processSection gm srcAgents baseAgents dest name) ∧
    (extractSection name dest ≠ [] → extractSection name srcAgents = [] →
      processSection gm srcAgents baseAgents dest name = dest) ∧
    (extractSection name dest ≠ [] →
      extractSection name srcAgents = extractSection name dest →
      processSection gm srcAgents baseAgents dest name = dest) := by
  refine ⟨?_, ?_, ?_⟩
  · intro hd hs
    obtain ⟨t, ht⟩ := extractSection_head name srcAgents hs
    have hp : processSection gm srcAgents baseAgents dest name
        = insertNewSection name (extractSection name srcAgents) dest := by
      simp [processSection, hd, hs]
    rw [hp, insertNewSection]
    by_cases hc : dest.any agentsCommentLine
    · rw [if_pos hc, ht]
      exact ⟨dest.takeWhile (fun l => !agentsCommentLine l) ++ [""],
        [""] ++ dest.dropWhile (fun l => !agentsCommentLine l), by simp⟩
    · rw [if_neg hc, ht]
      exact ⟨dest ++ [""], [], by simp⟩
  · intro hd hs
    simp [processSection, hd, hs]
  · intro hd hs
    simp [processSection, hd, hs]

theorem c3_merge_agents_sections_witness :
    (extractSection "Alpha" ["## Beta", "body b"] = [] ∧
     extractSection "Alpha" ["## Alpha", "body a"] ≠ [] ∧
     ["## Alpha", "body a"]
       <:+: processSection (fun _ _ _ => none)
              ["## Alpha", "body a"] [] ["## Beta", "body b"] "Alpha") ∧
    (extractSection "Beta" ["## Beta", "body b"] ≠ [] ∧
     extractSection "Beta" ["## Alpha", "body a"] = [] ∧
     processSection (fun _ _ _ => none)
        ["## Alpha", "body a"] [] ["## Beta", "body b"] "Beta"
       = ["## Beta", "body b"]) ∧
    (extractSection "Gamma" ["## Gamma", "same"] ≠ [] ∧
     processSection (fun _ _ _ => none)
        ["## Gamma", "same"] [] ["## Gamma", "same"] "Gamma"
       = ["## Gamma", "same"]) :=
  ⟨⟨by decide, by decide,
    by
      have h := (c3_merge_agents_sections (fun _ _ _ => none)
        ["## Alpha", "body a"] [] ["## Beta", "body b"] "Alpha").1
        (by decide) (by decide)
      exact h⟩,
   ⟨by decide, by decide,
    (c3_merge_agents_sections (fun _ _ _ => none)
        ["## Alpha", "body a"] [] ["## Beta", "body b"] "Beta").2.1
      (by decide) (by decide)⟩,
   ⟨by decide,
    (c3_merge_agents_sections (fun _ _ _ => none)
        ["## Gamma", "same"] [] ["## Gamma", "same"] "Gamma").2.2
      (by decide) rfl⟩⟩

/-- Configuration assembled by the argument-parsing loop of `main` in
`load-custom-skills.sh` (lines 650-688), with its four default values. -/
structure SkillsConfig where
  repo : String
  branch : String
  skillsPath : String
  destDir : String
deriving Repr, DecidableEq

/-- The default values set at the top of `main`. -/
def defaultSkillsConfig : SkillsConfig :=
  { repo := "moarora1/agenticai-development"
    branch := "agents-skills-update"
    skillsPath := ".claude/skills"
    destDir := ".claude/skills" }

/-- Result of the `while [[ $# -gt 0 ]] ... case` loop of `main`:
either a configuration, an exit through `usage`/`show_version` (status 0),
an unknown option (status 1), or a failing `shift 2` when a flag is given
without a value (`set -e` aborts with status 1). -/
inductive ParseOutcome where
  | ok (cfg : SkillsConfig)
  | helpExit
  | versionExit
  | unknownOption (tok : String)
  | shiftFailure
deriving Repr, DecidableEq

/-- The argument-parsing loop of `main`. -/
def parseArgs : List String → SkillsConfig → ParseOutcome
  | [], cfg => .ok cfg
  | a :: rest, cfg =>
    if a = "-r" ∨ a = "--repo" then
      match rest with
      | v :: rest' => parseArgs rest' { cfg with repo := v }
      | [] => .shiftFailure
    else if a = "-b" ∨ a = "--branch" then
      match rest with
      | v :: rest' => parseArgs rest' { cfg with branch := v }
      | [] => .shiftFailure
    else if a = "-s" ∨ a = "--skills-path" then
      match rest with
      | v :: rest' => parseArgs rest' { cfg with skillsPath := v }
      | [] => .shiftFailure
    else if a = "-d" ∨ a = "--dest-dir" then
      match rest with
      | v :: rest' => parseArgs rest' { cfg with destDir := v }
      | [] => .shiftFailure
    else if a = "-h" ∨ a = "--help" then .helpExit
    else if a = "-v" ∨ a = "--version" then .versionExit
    else .unknownOption a

/-- Environment facts `main` depends on: availability of the commands
checked by `require_cmd` and success of the `gh repo clone` call. -/
structure MainEnv where
  hasGh : Bool
  hasGit : Bool
  hasTar : Bool
  cloneOk : Bool
deriving Repr, DecidableEq

/-- Observable outcome of one run of `main`: the exit status, whether any
skill merging was performed, and whether the destination skills directory
was touched (it is first touched by the `mkdir -p "$dest_skills_dir"`
that runs only after a successful clone). -/
structure MainOutcome where
  exitCode : Nat
  mergedSkills : Bool
  destDirTouched : Bool
deriving Repr, DecidableEq

/-- `main` of `load-custom-skills.sh`: parse arguments (`usage` and
`show_version` exit 0, an unknown option exits 1), then `require_cmd gh`,
`require_cmd git`, `require_cmd tar` (each `die`s with status 1), then
clone (failure `die`s with status 1), then `mkdir -p` the destination and
merge.  `mergeOk` abstracts whether `discover_and_merge_skills` found and
merged any skill (its `return 1` propagates as `main`'s status). -/
def load_custom_skills_main (env : MainEnv) (mergeOk : Bool)
    (args : List String) : MainOutcome :=
  match parseArgs args defaultSkillsConfig with
  | .helpExit => ⟨0, false, false⟩
  | .versionExit => ⟨0, false, false⟩
  | .unknownOption _ => ⟨1, false, false⟩
  | .shiftFailure => ⟨1, false, false⟩
  | .ok _ =>
    if !env.hasGh then ⟨1, false, false⟩
    else if !env.hasGit then ⟨1, false, false⟩
    else if !env.hasTar then ⟨1, false, false⟩
    else if !env.cloneOk then ⟨1, false, false⟩
    else if mergeOk then ⟨0, true, true⟩
    else ⟨1, false, true⟩

/-- C5 counterexample: the claim says `main` exits with status 1 whenever
a required command is absent, but invoking `main -h` on a system without
`gh` exits through `usage` with status 0, because the argument loop runs
before the `require_cmd` checks. -/
theorem c5_counterexample :
    (MainEnv.hasGh ⟨false, true, true, true⟩ = false) ∧
    load_custom_skills_main ⟨false, true, true, true⟩ false ["-h"]
      = ⟨0, false, false⟩ ∧
    (load_custom_skills_main ⟨false, true, true, true⟩ false ["-h"]).exitCode ≠ 1 := by
  refine ⟨rfl, rfl, ?_⟩
  decide

/-- C5 (amended): unless the argument loop exits first through `-h` or `--help`
or `-v` or `--version` (status 0) or a missing flag value, `main` terminates
with status 1, performs no skill merging and leaves the destination
skills directory untouched whenever parsing hits an unknown option, or a
required command (`gh`, `git`, `tar`) is absent, or the clone fails. -/
theorem c5_failure_paths (env : MainEnv) (mergeOk : Bool)
    (args : List String)
    (h : (∃ t, parseArgs args defaultSkillsConfig = .unknownOption t) ∨
         (∃ cfg, parseArgs args defaultSkillsConfig = .ok cfg ∧
            (env.hasGh = false ∨ env.hasGit = false ∨
             env.hasTar = false ∨ env.cloneOk = false))) :
    load_custom_skills_main env mergeOk args = ⟨1, false, false⟩ := by
  rcases h with ⟨t, hp⟩ | ⟨cfg, hp, hb⟩
  · unfold load_custom_skills_main
    rw [hp]
  · unfold load_custom_skills_main
    rw [hp]
    rcases env with ⟨gh, git, tar, clone⟩
    simp only at hb
    cases gh <;> cases git <;> cases tar <;> cases clone <;> simp_all

theorem c5_failure_paths_witness :
    load_custom_skills_main ⟨true, true, true, false⟩ true [] = ⟨1, false, false⟩ ∧
    load_custom_skills_main ⟨true, true, true, true⟩ true ["--bogus"] = ⟨1, false, false⟩ :=
  ⟨c5_failure_paths ⟨true, true, true, false⟩ true []
      (Or.inr ⟨defaultSkillsConfig, rfl, Or.inr (Or.inr (Or.inr rfl))⟩),
   c5_failure_paths ⟨true, true, true, true⟩ true ["--bogus"]
      (Or.inl ⟨"--bogus", rfl⟩)⟩

/-- The shell parameter expansion `${VAR:-default}` used by
`load_custom_skills` in the setup script: the default is used when the
variable is unset or empty. -/
def shellDefault (v : Option String) (d : String) : String :=
  match v with
  | none => d
  | some s => if s = "" then d else s

/-- The four `CUSTOM_SKILLS_*` environment variables read by the setup
script's `load_custom_skills` function. -/
structure CustomSkillsEnv where
  repo : Option String
  branch : Option String
  skillsPath : Option String
  destDir : Option String

/-- The argument list with which the setup script's `load_custom_skills`
invokes `load-custom-skills.sh` (lines 952-967 of the setup script). -/
def load_custom_skills_args (e : CustomSkillsEnv) : List String :=
  ["--repo", shellDefault e.repo "moarora1/agenticai-development",
   "--branch", shellDefault e.branch "agents-skills-update",
   "--skills-path", shellDefault e.skillsPath ".claude/skills",
   "--dest-dir", shellDefault e.destDir ".claude/skills"]

/-- C7: the CLI accepts `-r` or `--repo`, `-b` or `--branch`,
`-s` or `--skills-path` and `-d` or `--dest-dir`; with no flags the configuration is the documented
default quadruple; each flag (short or long form) sets its field; and
when invoked through the setup script, each `CUSTOM_SKILLS_*` environment
variable overrides the corresponding default whenever it is set and
non-empty (the `${VAR:-default}` expansion). -/
theorem c7_cli_flags_and_env :
    parseArgs [] defaultSkillsConfig
      = .ok ⟨"moarora1/agenticai-development", "agents-skills-update",
             ".claude/skills", ".claude/skills"⟩ ∧
    (∀ v, parseArgs ["-r", v] defaultSkillsConfig
        = .ok { defaultSkillsConfig with repo := v } ∧
       parseArgs ["--repo", v] defaultSkillsConfig
        = .ok { defaultSkillsConfig with repo := v } ∧
       parseArgs ["-b", v] defaultSkillsConfig
        = .ok { defaultSkillsConfig with branch := v } ∧
       parseArgs ["--branch", v] defaultSkillsConfig
        = .ok { defaultSkillsConfig with branch := v } ∧
       parseArgs ["-s", v] defaultSkillsConfig
        = .ok { defaultSkillsConfig with skillsPath := v } ∧
       parseArgs ["--skills-path", v] defaultSkillsConfig
        = .ok { defaultSkillsConfig with skillsPath := v } ∧
       parseArgs ["-d", v] defaultSkillsConfig
        = .ok { defaultSkillsConfig with destDir := v } ∧
       parseArgs ["--dest-dir", v] defaultSkillsConfig
        = .ok { defaultSkillsConfig with destDir := v }) ∧
    (∀ e : CustomSkillsEnv,
       parseArgs (load_custom_skills_args e) defaultSkillsConfig
        = .ok ⟨shellDefault e.repo "moarora1/agenticai-development",
               shellDefault e.branch "agents-skills-update",
               shellDefault e.skillsPath ".claude/skills",
               shellDefault e.destDir ".claude/skills"⟩) ∧
    (∀ s d, shellDefault (some s) d = if s = "" then d else s) ∧
    (∀ d, shellDefault none d = d) := by
  refine ⟨rfl, ?_, ?_, fun s d => rfl, fun d => rfl⟩
  · intro v
    refine ⟨?_, ?_, ?_, ?_, ?_, ?_, ?_, ?_⟩ <;> simp [parseArgs]
  · intro e
    simp [parseArgs, load_custom_skills_args]

/-- Whitespace recognised by JavaScript `String.prototype.trim`
(WhiteSpace and LineTerminator code points: ASCII whitespace, NBSP, BOM,
the Unicode space separators and the line/paragraph separators). -/
def isJsSpace (c : Char) : Bool :=
  c = ' ' || c = '\t' || c = '\n' || c = '\r' || c = '\x0b' || c = '\x0c' ||
  c = ' ' || c = '﻿' || c = ' ' ||
  (' ' ≤ c && c ≤ ' ') ||
  c = ' ' || c = ' ' || c = ' ' || c = ' ' || c = '　'

/-- JavaScript `s.trim()`: remove leading and trailing whitespace. -/
def jsTrim (s : String) : String :=
  ⟨((s.data.dropWhile isJsSpace).reverse.dropWhile isJsSpace).reverse⟩

/-- JavaScript `s.toLowerCase()` restricted to its ASCII behaviour, which
is all the decorators compare against (`'true'`/`'false'` literals). -/
def jsToLower (s : String) : String :=
  ⟨s.data.map Char.toLower⟩

/-- The `textContent` of an optional DOM node, trimmed, with `|| ''` /
optional-chaining defaulting: `node?.textContent?.trim() || ''`. -/
def jsTrimOr (o : Option String) : String :=
  (o.map jsTrim).getD ""

/-- UTF-16 code units of a string, matching JavaScript `charCodeAt`
(code points above U+FFFF split into surrogate pairs). -/
def utf16Units (s : String) : List Nat :=
  s.data.flatMap (fun c =>
    let n := c.toNat
    if n < 65536 then [n]
    else [55296 + (n - 65536) / 1024, 56320 + (n - 65536) % 1024])

/-- One step of the `generateAlertKey` hash loop from
`blocks/alert/alert.js`: `hash = ((hash * 31) + char) % 2147483647`.
All intermediate values stay below `2147483646 * 31 + 65535 < 2^53`, so
the JavaScript double arithmetic is exact and the natural-number model is
faithful. -/
def alertHashStep (h c : Nat) : Nat :=
  (h * 31 + c) % 2147483647

/-- The `generateAlertKey` hash of a list of UTF-16 code units. -/
def alertHash (units : List Nat) : Nat :=
  units.foldl alertHashStep 0

/-- `generateAlertKey` from `blocks/alert/alert.js`, as a function of the
`textContent` of the `.alert-title` and `.alert-description` nodes (absent
node modelled as `none`).  The hash is non-negative in the model, which
matches JavaScript where `Math.abs` is the identity on the always
non-negative `hash`. -/
def generateAlertKey (title description : Option String) : String :=
  "alert-dismissed-" ++
    toString (alertHash (utf16Units (jsTrimOr title ++ jsTrimOr description)))

theorem alertHash_foldl_lt :
    ∀ (l : List Nat) (h : Nat), h < 2147483647 →
      l.foldl alertHashStep h < 2147483647 := by
  intro l
  induction l with
  | nil => intro h hh; simpa using hh
  | cons c cs ih =>
    intro h _
    exact ih (alertHashStep h c) (Nat.mod_lt _ (by norm_num))

theorem alertHash_lt (units : List Nat) : alertHash units < 2147483647 :=
  alertHash_foldl_lt units 0 (by norm_num)

/-- C9: `generateAlertKey` always returns `alert-dismissed-N` with
`0 ≤ N ≤ 2147483646`, and `N` depends only on the concatenation of the
trimmed title and description text, so two alert blocks with equal title
and description content receive the same localStorage key. -/
theorem c9_alert_key (title description : Option String) :
    (∃ n : Nat, n ≤ 2147483646 ∧
       generateAlertKey title description = "alert-dismissed-" ++ toString n) ∧
    (∀ title' description' : Option String,
       jsTrimOr title = jsTrimOr title' →
       jsTrimOr description = jsTrimOr description' →
       generateAlertKey title description
         = generateAlertKey title' description') := by
  constructor
  · refine ⟨alertHash (utf16Units (jsTrimOr title ++ jsTrimOr description)),
      ?_, rfl⟩
    have := alertHash_lt (utf16Units (jsTrimOr title ++ jsTrimOr description))
    omega
  · intro t' d' h1 h2
    unfold generateAlertKey
    rw [h1, h2]

theorem c9_alert_key_witness :
    jsTrimOr (some "  Site maintenance ") = jsTrimOr (some "Site maintenance") ∧
    jsTrimOr (some " tonight") = jsTrimOr none ++ jsTrimOr (some "tonight") ∧
    generateAlertKey (some "  Site maintenance ") (some " tonight")
      = generateAlertKey (some "Site maintenance") (some "tonight") :=
  ⟨by decide, by decide,
   (c9_alert_key (some "  Site maintenance ") (some " tonight")).2
      (some "Site maintenance") (some "tonight") (by decide) (by decide)⟩

/-- A cell of a downloads-block item row, carrying the fields the
decorator inspects: its text content, whether it contains an anchor and
whether it contains a heading element (`h2`-`h6`). -/
structure DlCell where
  text : String
  hasAnchor : Bool
  hasHeadingElem : Bool
deriving Repr, DecidableEq

/-- The `downloads-item` element produced by `processDownloadItem`. -/
structure DownloadsItem where
  label : String
  description : String
  iconType : String
  newTab : Bool
deriving Repr, DecidableEq

/-- `textContent` of a whole item row: concatenation of its cells. -/
def dlRowText (row : List DlCell) : String :=
  String.join (row.map (·.text))

/-- The trimmed label cell text of an item row
(`rows[0]?.textContent?.trim() || ''`). -/
def dlLabel (row : List DlCell) : String :=
  jsTrimOr ((row[0]?).map (·.text))

/-- Whether the path cell of an item row contains an anchor
(`rows[2]?.querySelector('a')`). -/
def dlHasLink (row : List DlCell) : Bool :=
  ((row[2]?).map (·.hasAnchor)).getD false

/-- `processDownloadItem` from `blocks/downloads/downloads.js`: items
without an anchor in the path cell or with an empty trimmed label are
rejected (`return null`); otherwise one `downloads-item` is built. -/
def processDownloadItem (row : List DlCell) : Option DownloadsItem :=
  let label := dlLabel row
  let description := jsTrimOr ((row[1]?).map (·.text))
  let iconType := jsToLower (jsTrimOr ((row[3]?).map (·.text)))
  let sameTab := ((row[4]?).map
    (fun c => jsToLower (jsTrim c.text) == "true")).getD false
  if !dlHasLink row || label == "" then none
  else some ⟨label, description, iconType, !sameTab⟩

/-- Heading detection of `decorate` in `downloads.js`: the first row is
consumed as an optional heading when it contains a heading element, or
has non-empty text and no anchor; item processing then starts at index 1.
-/
def downloadsStartIndex (rows : List (List DlCell)) : Nat :=
  match rows with
  | [] => 0
  | r0 :: _ =>
    let t := jsTrim (dlRowText r0)
    let hasHeading :=
      r0.any (·.hasHeadingElem) || (!(t == "") && !(r0.any (·.hasAnchor)))
    if hasHeading && !(t == "") then 1 else 0

/-- `decorate` from `blocks/downloads/downloads.js`, restricted to the
`downloads-list`: each item row from `downloadsStartIndex` on contributes
`processDownloadItem` when it is non-null. -/
def decorateDownloads (rows : List (List DlCell)) : List DownloadsItem :=
  (rows.drop (downloadsStartIndex rows)).filterMap processDownloadItem

theorem processDownloadItem_isSome (row : List DlCell) :
    (processDownloadItem row).isSome = (dlHasLink row && !(dlLabel row == "")) := by
  unfold processDownloadItem
  rcases h1 : dlHasLink row <;> rcases h2 : dlLabel row == "" <;> simp [h1, h2]

theorem length_filterMap_eq_length_filter_isSome
    {α β : Type} (f : α → Option β) :
    ∀ l : List α,
      (l.filterMap f).length = (l.filter (fun x => (f x).isSome)).length := by
  intro l
  induction l with
  | nil => simp
  | cons x xs ih =>
    rcases h : f x with _ | y <;>
      simp [List.filterMap_cons, List.filter_cons, h, ih]

/-- C6: in the downloads block, every item row (the rows processed after
the optional heading row) whose path cell has no anchor or whose label
trims to the empty string yields `null` from `processDownloadItem` and so
contributes no item, and the decorated list has exactly one
`downloads-item` per item row having both an anchor and a non-empty
label. -/
theorem c6_downloads_items (rows : List (List DlCell)) :
    (∀ r ∈ rows.drop (downloadsStartIndex rows),
       (dlHasLink r = false ∨ dlLabel r = "") →
       processDownloadItem r = none) ∧
    (decorateDownloads rows).length
      = ((rows.drop (downloadsStartIndex rows)).filter
           (fun r => dlHasLink r && !(dlLabel r == ""))).length := by
  constructor
  · intro r _ h
    rcases hp : processDownloadItem r with _ | item
    · rfl
    · exfalso
      have hs := processDownloadItem_isSome r
      rw [hp] at hs
      rcases h with h | h <;> rw [h] at hs <;> simp at hs
  · unfold decorateDownloads
    rw [length_filterMap_eq_length_filter_isSome]
    congr 1
    exact List.filter_congr (fun r _ => processDownloadItem_isSome r)

theorem c6_downloads_items_witness :
    ([[⟨"Useful files", false, false⟩],
      [⟨"Report", false, false⟩, ⟨"yearly", false, false⟩, ⟨"", true, false⟩],
      [⟨"  ", false, false⟩, ⟨"", false, false⟩, ⟨"", true, false⟩],
      [⟨"Plain", false, false⟩, ⟨"", false, false⟩, ⟨"nolink", false, false⟩]]
        : List (List DlCell)) ≠ [] ∧
    processDownloadItem
      [⟨"  ", false, false⟩, ⟨"", false, false⟩, ⟨"", true, false⟩] = none ∧
    decorateDownloads
      [[⟨"Useful files", false, false⟩],
       [⟨"Report", false, false⟩, ⟨"yearly", false, false⟩, ⟨"", true, false⟩],
       [⟨"  ", false, false⟩, ⟨"", false, false⟩, ⟨"", true, false⟩],
       [⟨"Plain", false, false⟩, ⟨"", false, false⟩, ⟨"nolink", false, false⟩]]
      = [⟨"Report", "yearly", "", true⟩] :=
  ⟨by decide,
   (c6_downloads_items
      [[⟨"Useful files", false, false⟩],
       [⟨"Report", false, false⟩, ⟨"yearly", false, false⟩, ⟨"", true, false⟩],
       [⟨"  ", false, false⟩, ⟨"", false, false⟩, ⟨"", true, false⟩],
       [⟨"Plain", false, false⟩, ⟨"", false, false⟩, ⟨"nolink", false, false⟩]]).1
     [⟨"  ", false, false⟩, ⟨"", false, false⟩, ⟨"", true, false⟩]
     (by decide) (Or.inr (by decide)),
   by decide⟩

/-- A `li.carousel-slide` as far as `goToSlide` observes it: whether it
carries the `carousel-slide-clone` class (excluded by the selector
`.carousel-slide:not(.carousel-slide-clone)`) and its `aria-hidden`
attribute (`true`/`false` as a boolean). -/
structure Slide where
  isClone : Bool
  ariaHidden : Bool
deriving Repr, DecidableEq

/-- A `.carousel-nav-indicator` button: the `active` class and the
`aria-current` attribute. -/
structure Indicator where
  active : Bool
  ariaCurrent : Bool
deriving Repr, DecidableEq

/-- The carousel block state touched by `goToSlide`: the slide list, the
indicator list and the stored `dataset.activeSlide`. -/
structure Carousel where
  slides : List Slide
  indicators : List Indicator
  activeSlide : Nat
deriving Repr, DecidableEq

/-- `totalSlides`: the number of non-clone slides. -/
def nonCloneTotal (c : Carousel) : Nat :=
  c.slides.countP (fun s => !s.isClone)

/-- The `slides.forEach` ARIA update of `goToSlide`: the counter `i` runs
over the non-clone slides only (the NodeList excludes clones); the slide
at `target` gets `aria-hidden="false"`, every other one
`aria-hidden="true"`. -/
def updateSlides (target : Nat) : Nat → List Slide → List Slide
  | _, [] => []
  | i, s :: rest =>
    if s.isClone then s :: updateSlides target i rest
    else ⟨s.isClone, i != target⟩ :: updateSlides target (i + 1) rest

/-- `updateIndicators`: the indicator at `activeIndex` gets the `active`
class and `aria-current="true"`, every other indicator loses the class
and gets `aria-current="false"`. -/
def updateInds (target : Nat) : Nat → List Indicator → List Indicator
  | _, [] => []
  | i, _ :: rest => ⟨i == target, i == target⟩ :: updateInds target (i + 1) rest

/-- `goToSlide` from `blocks/carousel/carousel.js`: return unchanged when
there are no slides; otherwise wrap the requested index (`index < 0` to
`totalSlides - 1`, `index >= totalSlides` to `0`), store it in
`dataset.activeSlide`, and rewrite the indicator and slide attributes. -/
def goToSlide (c : Carousel) (index : Int) : Carousel :=
  if nonCloneTotal c = 0 then c
  else
    let target : Nat :=
      if index < 0 then nonCloneTotal c - 1
      else if (nonCloneTotal c : Int) ≤ index then 0
      else index.toNat
    ⟨updateSlides target 0 c.slides, updateInds target 0 c.indicators, target⟩

theorem updateSlides_visible_count (target : Nat) :
    ∀ (l : List Slide) (i : Nat),
      (updateSlides target i l).countP (fun s => !s.isClone && !s.ariaHidden)
        = if i ≤ target ∧ target < i + l.countP (fun s => !s.isClone)
          then 1 else 0 := by
  intro l
  induction l with
  | nil =>
    intro i
    have hno : ¬ (i ≤ target ∧
        target < i + ([] : List Slide).countP (fun s => !s.isClone)) := by
      simp only [List.countP_nil]
      omega
    rw [if_neg hno]
    rfl
  | cons s rest ih =>
    intro i
    by_cases hc : s.isClone = true
    · have e1 : updateSlides target i (s :: rest)
          = s :: updateSlides target i rest := by
        simp [updateSlides, hc]
      rw [e1, List.countP_cons, List.countP_cons, ih]
      simp [hc]
    · have hcf : s.isClone = false := by
        simpa using hc
      have e1 : updateSlides target i (s :: rest)
          = ⟨s.isClone, i != target⟩ :: updateSlides target (i + 1) rest := by
        simp [updateSlides, hcf]
      rw [e1, List.countP_cons, List.countP_cons, ih]
      by_cases hit : i = target
      · simp only [hcf, hit, bne_self_eq_false, Bool.not_false, Bool.and_self,
          if_true, Bool.not_true, Bool.and_false, if_false]
        split_ifs <;> omega
      · have hbne : (i != target) = true := by
          simpa using hit
        simp [hcf, hbne]
        split_ifs <;> omega

theorem updateInds_active_count (target : Nat) :
    ∀ (l : List Indicator) (i : Nat),
      (updateInds target i l).countP (fun d => d.active && d.ariaCurrent)
        = if i ≤ target ∧ target < i + l.length then 1 else 0 := by
  intro l
  induction l with
  | nil =>
    intro i
    have hno : ¬ (i ≤ target ∧ target < i + ([] : List Indicator).length) := by
      simp only [List.length_nil]
      omega
    rw [if_neg hno]
    rfl
  | cons d rest ih =>
    intro i
    have e1 : updateInds target i (d :: rest)
        = ⟨i == target, i == target⟩ :: updateInds target (i + 1) rest := rfl
    rw [e1, List.countP_cons, ih, List.length_cons]
    by_cases hit : i = target
    · simp only [hit, beq_self_eq_true, Bool.and_self, if_true]
      split_ifs <;> omega
    · have hbeq : (i == target) = false := by
        simpa using hit
      simp [hbeq]
      split_ifs <;> omega

/-- C8: for any carousel with at least one non-clone slide and as many
indicators as slides, after `goToSlide` the stored active index lies in
`[0, totalSlides - 1]` — an index below 0 wraps to `totalSlides - 1`, an
index at or above `totalSlides` wraps to 0, an in-range index is kept —
exactly one non-clone slide has `aria-hidden="false"`, and exactly one
indicator has the `active` class with `aria-current="true"`. -/
theorem c8_goToSlide_invariant (c : Carousel) (index : Int)
    (h1 : 1 ≤ nonCloneTotal c)
    (h2 : c.indicators.length = nonCloneTotal c) :
    (goToSlide c index).activeSlide < nonCloneTotal c ∧
    (index < 0 → (goToSlide c index).activeSlide = nonCloneTotal c - 1) ∧
    ((nonCloneTotal c : Int) ≤ index → (goToSlide c index).activeSlide = 0) ∧
    (0 ≤ index → index < (nonCloneTotal c : Int) →
      (goToSlide c index).activeSlide = index.toNat) ∧
    (goToSlide c index).slides.countP (fun s => !s.isClone && !s.ariaHidden) = 1 ∧
    (goToSlide c index).indicators.countP (fun d => d.active && d.ariaCurrent) = 1 := by
  have h0 : ¬ nonCloneTotal c = 0 := by omega
  have htarget :
      (if index < 0 then nonCloneTotal c - 1
       else if (nonCloneTotal c : Int) ≤ index then 0
       else index.toNat) < nonCloneTotal c := by
    split_ifs with hneg hbig
    · omega
    · omega
    · omega
  unfold goToSlide
  rw [if_neg h0]
  refine ⟨htarget, ?_, ?_, ?_, ?_, ?_⟩
  · intro hneg
    simp [hneg]
  · intro hbig
    have hneg : ¬ index < 0 := by omega
    simp [hneg, hbig]
  · intro hp hlt
    have hneg : ¬ index < 0 := by omega
    have hbig : ¬ (nonCloneTotal c : Int) ≤ index := by omega
    simp [hneg, hbig]
  · rw [updateSlides_visible_count]
    have : nonCloneTotal c = c.slides.countP (fun s => !s.isClone) := rfl
    rw [if_pos]
    refine ⟨Nat.zero_le _, ?_⟩
    omega
  · rw [updateInds_active_count]
    rw [if_pos]
    refine ⟨Nat.zero_le _, ?_⟩
    omega

theorem c8_goToSlide_invariant_witness :
    1 ≤ nonCloneTotal ⟨[⟨false, false⟩, ⟨false, true⟩, ⟨false, true⟩],
        [⟨true, true⟩, ⟨false, false⟩, ⟨false, false⟩], 0⟩ ∧
    (Carousel.indicators ⟨[⟨false, false⟩, ⟨false, true⟩, ⟨false, true⟩],
        [⟨true, true⟩, ⟨false, false⟩, ⟨false, false⟩], 0⟩).length
      = nonCloneTotal ⟨[⟨false, false⟩, ⟨false, true⟩, ⟨false, true⟩],
        [⟨true, true⟩, ⟨false, false⟩, ⟨false, false⟩], 0⟩ ∧
    ((goToSlide ⟨[⟨false, false⟩, ⟨false, true⟩, ⟨false, true⟩],
        [⟨true, true⟩, ⟨false, false⟩, ⟨false, false⟩], 0⟩ (-2)).activeSlide
      < nonCloneTotal ⟨[⟨false, false⟩, ⟨false, true⟩, ⟨false, true⟩],
        [⟨true, true⟩, ⟨false, false⟩, ⟨false, false⟩], 0⟩ ∧
     (goToSlide ⟨[⟨false, false⟩, ⟨false, true⟩, ⟨false, true⟩],
        [⟨true, true⟩, ⟨false, false⟩, ⟨false, false⟩], 0⟩ (-2)).slides.countP
          (fun s => !s.isClone && !s.ariaHidden) = 1 ∧
     (goToSlide ⟨[⟨false, false⟩, ⟨false, true⟩, ⟨false, true⟩],
        [⟨true, true⟩, ⟨false, false⟩, ⟨false, false⟩], 0⟩ (-2)).indicators.countP
          (fun d => d.active && d.ariaCurrent) = 1) := by
  refine ⟨by decide, by decide, ?_⟩
  have h := c8_goToSlide_invariant
    ⟨[⟨false, false⟩, ⟨false, true⟩, ⟨false, true⟩],
     [⟨true, true⟩, ⟨false, false⟩, ⟨false, false⟩], 0⟩ (-2)
    (by decide) (by decide)
  exact ⟨h.1, h.2.2.2.2.1, h.2.2.2.2.2⟩

/-- A row of the download block as `decorate` in
`blocks/download/download.js` reads it: its text content, the `href` of
an anchor in it (if any), and whether it contains a rich-text `div`. -/
structure DownloadRow where
  text : String
  anchorHref : Option String
  hasRichDiv : Bool
deriving Repr, DecidableEq

/-- Work scheduled by a decorator that runs — and mutates the page —
after the decorate call has returned: the pending promise continuation
`getFileSize(assetUrl).then((size) => sizeTag.textContent = ...)` of the
download block, and the `setInterval(..., 5000)` autoplay timer of the
carousel block. -/
inductive DeferredWork where
  | fileSizeUpdate (url : String)
  | autoplayInterval (ms : Nat)
deriving Repr, DecidableEq

/-- `const assetUrl = assetLink?.href` followed by the `if (!assetUrl)`
falsiness test: no anchor in row 0, or an anchor with an empty `href`,
means no asset. -/
def downloadAssetUrl (rows : List DownloadRow) : Option String :=
  match (rows[0]?).bind (·.anchorHref) with
  | some u => if u == "" then none else some u
  | none => none

/-- `rows[i]?.textContent?.trim().toLowerCase() === 'true'` (an absent
row gives `undefined === 'true'`, i.e. false). -/
def downloadBoolRow (rows : List DownloadRow) (i : Nat) : Bool :=
  match rows[i]? with
  | some r => jsToLower (jsTrim r.text) == "true"
  | none => false

/-- `rows[i]?.textContent?.trim().toLowerCase() !== 'false'` (an absent
row gives `undefined !== 'false'`, i.e. true — the default-true flags). -/
def downloadBoolRowDefaultTrue (rows : List DownloadRow) (i : Nat) : Bool :=
  match rows[i]? with
  | some r => !(jsToLower (jsTrim r.text) == "false")
  | none => true

/-- Outcome of the download block `decorate` call: the rendered pieces it
decides on synchronously and the deferred work it schedules. -/
structure DownloadDecorated where
  isError : Bool
  title : Option String
  hasDescription : Bool
  buttonText : String
  displayInline : Bool
  displayFilename : Bool
  displayFileSize : Bool
  displayFileFormat : Bool
  customId : Option String
  deferred : List DeferredWork
deriving Repr, DecidableEq

/-- `decorate` from `blocks/download/download.js`: with no asset URL only
the error paragraph is rendered; otherwise the block is rebuilt
synchronously and, when `displayFileSize` is enabled, a `Loading...` size
tag is rendered and `getFileSize(assetUrl).then(...)` schedules a pending
promise continuation that overwrites the tag after decoration returns. -/
def decorateDownload (rows : List DownloadRow) : DownloadDecorated :=
  match downloadAssetUrl rows with
  | none =>
    ⟨true, none, false, "Download", false, true, true, true, none, []⟩
  | some url =>
    let titleText := jsTrimOr ((rows[1]?).map (·.text))
    let getTitleFromDAM := downloadBoolRow rows 2
    let hasDescContent := ((rows[3]?).map (·.hasRichDiv)).getD false
    let getDescFromDAM := downloadBoolRow rows 4
    let buttonRaw := jsTrimOr ((rows[5]?).map (·.text))
    let displayInline := downloadBoolRow rows 6
    let displayFilename := downloadBoolRowDefaultTrue rows 7
    let displayFileSize := downloadBoolRowDefaultTrue rows 8
    let displayFileFormat := downloadBoolRowDefaultTrue rows 9
    let customIdRaw := jsTrimOr ((rows[10]?).map (·.text))
    ⟨false,
     (if titleText == "" || getTitleFromDAM then none else some titleText),
     hasDescContent && !getDescFromDAM,
     (if buttonRaw == "" then "Download" else buttonRaw),
     displayInline, displayFilename, displayFileSize, displayFileFormat,
     (if customIdRaw == "" then none else some customIdRaw),
     (if displayFileSize then [.fileSizeUpdate url] else [])⟩

/-- `decorate` of `blocks/carousel/carousel.js`, reduced to what it
schedules: nothing for an empty block (early return before any timer);
otherwise a 5000 ms `setInterval` exactly when the block carries the
`autoplay` class.  (The slide/indicator construction is modelled by
`goToSlide`, `updateSlides` and `updateInds`; keyboard and touch
listeners only react to user events and schedule nothing.) -/
def decorateCarousel (itemCount : Nat) (classes : List String) :
    Nat × List DeferredWork :=
  if itemCount = 0 then (0, [])
  else (itemCount,
    if classes.contains "autoplay" then [.autoplayInterval 5000] else [])

/-- C4 counterexample: the claim that no decorator schedules deferred
page-mutating work fails on the code.  A download block with just an
asset link (all display flags at their defaults) schedules the file-size
promise continuation, and a carousel with the `autoplay` variant
schedules a repeating interval. -/
theorem c4_counterexample :
    (decorateDownload [⟨"", some "https://example.com/report.pdf", false⟩]).deferred
      = [.fileSizeUpdate "https://example.com/report.pdf"] ∧
    (decorateDownload [⟨"", some "https://example.com/report.pdf", false⟩]).deferred
      ≠ [] ∧
    (decorateCarousel 2 ["carousel", "autoplay", "block"]).2
      = [.autoplayInterval 5000] := by
  refine ⟨?_, ?_, ?_⟩ <;> decide

/-- C4 (amended): block decorators run synchronously except for the
deferred work they explicitly schedule: the download decorator schedules
exactly one pending file-size promise continuation precisely when an
asset URL is present and `displayFileSize` is not disabled, and the
carousel decorator schedules exactly one 5000 ms autoplay interval
precisely when the block is non-empty and carries the `autoplay` class;
no other work is scheduled during decoration. -/
theorem c4_deferred_characterisation :
    (∀ rows : List DownloadRow,
       (decorateDownload rows).deferred
        = match downloadAssetUrl rows with
          | some url =>
            if downloadBoolRowDefaultTrue rows 8
            then [.fileSizeUpdate url] else []
          | none => []) ∧
    (∀ (itemCount : Nat) (classes : List String),
       (decorateCarousel itemCount classes).2
        = if itemCount ≠ 0 ∧ classes.contains "autoplay" = true
          then [.autoplayInterval 5000] else []) := by
  constructor
  · intro rows
    unfold decorateDownload
    rcases h : downloadAssetUrl rows with _ | url <;> simp
  · intro itemCount classes
    unfold decorateCarousel
    by_cases h0 : itemCount = 0
    · simp [h0]
    · by_cases ha : classes.contains "autoplay" = true <;> simp [h0, ha]
